import Mathlib

/-!
# nasa-background: the image-resolution engine of `main.go`

A shallow embedding of the rolling-date resolver `getImageURLWithRollingDate`,
of `fetchAPIResponse`, and of the three providers `getMarsImageURL`,
`getRandomEarthImageURL` and `getEpicImageURL`.

Conventions of the embedding.

* The outside world (HTTP transport, wall clock, the global `math/rand`
  source) is a value of an arbitrary type `W`, threaded explicitly through
  every call; the library operations on it are the fields of `Env`.
* A Go `error` is `Option String`: `none` is `nil`, `some msg` is an error with
  message `msg`.
* A Go runtime panic (`rand.Intn(0)`, index out of range) is the outer `none`
  of an `Option` result.
* A date is its calendar day number (`Int`); `AddDate(0, 0, -1)` is `- 1`.
* A format string applied by `fmt.Sprintf` to one string argument is a
  function `String → String` (`Template`).
* `float64` is an arbitrary type `F` with the operations the code uses.
* Standard output (`fmt.Println`, `fmt.Printf`) is not modelled; instead every
  result carries the list of rolling-date attempts made, in order.
* `encoding/json` is not modelled: the decoders are fields of `Env`.
-/

namespace NasaBackground

/-! ## Data model -/

/-- The constant `apiKey` (main.go:17). -/
def apiKey : String := ""

/-- A `MarsPhoto` (main.go:21). -/
structure MarsPhoto where
  ImgSrc : String
deriving DecidableEq, Repr

/-- An `ErrorResponse` (main.go:25). -/
structure ErrorResponse where
  Msg : String
deriving DecidableEq, Repr

/-- A `MarsResponse` (main.go:29). -/
structure MarsResponse where
  Photos : List MarsPhoto
deriving DecidableEq, Repr

/-- An `EpicImage` (main.go:126). -/
structure EpicImage where
  Image : String
  Date : String
deriving DecidableEq, Repr

/-- The `interface{}` values the program passes as `resultType`: the nil
interface (Earth) or a `*MarsResponse` pointing at the given value (Mars). -/
inductive Iface where
  | nil
  | marsResponse (r : MarsResponse)
deriving DecidableEq, Repr

/-- What `http.Get(url)` followed by `io.ReadAll(resp.Body)` can yield: a
transport error, or a response with its `Content-Type` header and the outcome
of reading the body. -/
inductive HttpResult where
  | failed (err : String)
  | response (contentType : String) (body : Except String String)

/-- A format string applied by `fmt.Sprintf` to a single string argument. -/
abbrev Template := String → String

/-- The library operations the program uses, over a world `W` and a float
type `F`. -/
structure Env (W F : Type) where
  /-- The transport `http.Get` together with reading the response body. -/
  httpGet : String → W → HttpResult × W
  /-- The calendar day of `time.Now()`. -/
  timeNow : W → Int × W
  /-- The layout `Format("2006-01-02")` of a calendar day. -/
  formatDate : Int → String
  /-- The next raw value of the global random source behind `rand.Intn`. -/
  randInt : W → Nat × W
  /-- The function `rand.Float64()`. -/
  randFloat64 : W → F × W
  /-- Conversion of an integer constant to `float64`. -/
  fconst : Int → F
  /-- Addition of `float64`. -/
  fadd : F → F → F
  /-- Multiplication of `float64`. -/
  fmul : F → F → F
  /-- The verb `%f`. -/
  fmtF : F → String
  /-- The call `json.Unmarshal(body, &errorResponse)`: `some` when it returns
  `nil`. -/
  unmarshalErrorResponse : String → Option ErrorResponse
  /-- The error message of `json.Unmarshal(body, nil)`, which always fails. -/
  unmarshalNil : String → String
  /-- The call `json.Unmarshal(body, marsData)`: the error and the updated
  target. -/
  unmarshalMars : String → MarsResponse → Option String × MarsResponse
  /-- The call `json.NewDecoder(resp.Body).Decode(&data)` on a body that was
  read. -/
  decodeEpic : String → Except String (List EpicImage)

/-- One iteration of the rolling-date loop: the date tried and the URL passed
to `fetchAPIResponse`. -/
structure Attempt where
  date : Int
  url : String
deriving DecidableEq, Repr

/-- What a resolver or provider returns: the `(string, error)` pair, the world
afterwards, and the rolling-date attempts made, in order. -/
structure Result (W : Type) where
  url : String
  err : Option String
  world : W
  attempts : List Attempt

/-- An extraction function `func(interface{}) (string, error)`; it may consume
the world (the random source) and may panic. -/
abbrev Extract (W : Type) := Iface → W → Option (String × Option String × W)

/-! ## Library helpers -/

/-- The function `strings.HasPrefix`. -/
def HasPrefix (s pre : String) : Bool := pre.data.isPrefixOf s.data

/-- Splitting a character list at every occurrence of `sep`. -/
def splitChars (sep : Char) : List Char → List (List Char)
  | [] => [[]]
  | c :: cs =>
    if c = sep then [] :: splitChars sep cs
    else
      match splitChars sep cs with
      | [] => [[c]]
      | p :: ps => (c :: p) :: ps

/-- The function `strings.Split` for a one-character separator. -/
def Split (s : String) (sep : Char) : List String :=
  (splitChars sep s.data).map String.mk

/-- The function `strings.ReplaceAll` for one-character `old` and `new`. -/
def ReplaceAll (s : String) (old new : Char) : String :=
  String.mk (s.data.map (fun c => if c = old then new else c))

/-- The function `rand.Intn`: panics for `n = 0`, otherwise a value below `n`. -/
def Intn {W F : Type} (env : Env W F) (n : Nat) (w : W) : Option (Nat × W) :=
  if n = 0 then none
  else
    let (r, w1) := env.randInt w
    some (r % n, w1)

/-- The function `json.Unmarshal(body, result)` on a `resultType`. -/
def jsonUnmarshal {W F : Type} (env : Env W F) (body : String) :
    Iface → Option String × Iface
  | .nil => (some (env.unmarshalNil body), .nil)
  | .marsResponse r =>
    let (e, r1) := env.unmarshalMars body r
    (e, .marsResponse r1)

/-! ## The program -/

/-- The function `fetchAPIResponse` (main.go:33): the error and the updated
`result`, and the world afterwards. -/
def fetchAPIResponse {W F : Type} (env : Env W F) (url : String) (result : Iface)
    (w : W) : Option String × Iface × W :=
  match env.httpGet url w with
  | (.failed err, w1) => (some err, result, w1)
  | (.response contentType body, w1) =>
    if HasPrefix contentType "image/" then
      match body with
      | .error err => (some err, result, w1)
      | .ok _ => (none, result, w1)
    else
      match body with
      | .error err => (some err, result, w1)
      | .ok b =>
        match env.unmarshalErrorResponse b with
        | some errorResponse =>
          if errorResponse.Msg ≠ "" then
            (some ("API error: " ++ errorResponse.Msg), result, w1)
          else
            let (e, result1) := jsonUnmarshal env b result
            (e, result1, w1)
        | none =>
          let (e, result1) := jsonUnmarshal env b result
          (e, result1, w1)

/-- The loop of `getImageURLWithRollingDate` (main.go:67-86) with `remaining`
iterations still to run (`daysToRoll - i`). -/
def rollLoop {W F : Type} (env : Env W F) (baseURL : Template)
    (processResponse : Extract W) :
    Nat → Int → Iface → W → List Attempt → Option (Result W)
  | 0, _, _, w, log => some ⟨"", some "no images found", w, log⟩
  | remaining + 1, date, resultType, w, log =>
    let dateStr := env.formatDate date
    let url := baseURL dateStr
    let log1 := log ++ [⟨date, url⟩]
    match fetchAPIResponse env url resultType w with
    | (some _, resultType1, w1) =>
      rollLoop env baseURL processResponse remaining (date - 1) resultType1 w1 log1
    | (none, resultType1, w1) =>
      match processResponse resultType1 w1 with
      | none => none
      | some (imgURL, none, w2) =>
        if imgURL ≠ "" then some ⟨imgURL, none, w2, log1⟩
        else some ⟨url, none, w2, log1⟩
      | some (_, some _, w2) =>
        rollLoop env baseURL processResponse remaining (date - 1) resultType1 w2 log1

/-- The function `getImageURLWithRollingDate` (main.go:65). -/
def getImageURLWithRollingDate {W F : Type} (env : Env W F) (baseURL : Template)
    (processResponse : Extract W) (daysToRoll : Int) (resultType : Iface)
    (w : W) : Option (Result W) :=
  let (date, w0) := env.timeNow w
  rollLoop env baseURL processResponse daysToRoll.toNat date resultType w0 []

/-- The format string `baseURL` of `getMarsImageURL` (main.go:90). -/
def marsBaseURL : Template := fun dateStr =>
  "https://api.nasa.gov/mars-photos/api/v1/rovers/curiosity/photos?earth_date="
    ++ dateStr ++ "&api_key=" ++ apiKey

/-- The extraction closure of `getMarsImageURL` (main.go:92-98). -/
def marsProcessResponse {W F : Type} (env : Env W F) : Extract W := fun data w =>
  match data with
  | .nil => some ("", some "no Mars images found", w)
  | .marsResponse marsData =>
    if marsData.Photos.length = 0 then some ("", some "no Mars images found", w)
    else
      match Intn env marsData.Photos.length w with
      | none => none
      | some (i, w1) =>
        match marsData.Photos[i]? with
        | none => none
        | some photo => some (photo.ImgSrc, none, w1)

/-- The function `getMarsImageURL` (main.go:89). -/
def getMarsImageURL {W F : Type} (env : Env W F) (w : W) : Option (Result W) :=
  getImageURLWithRollingDate env marsBaseURL (marsProcessResponse env) 30
    (.marsResponse ⟨[]⟩) w

/-- The format string `baseURL` that `getRandomEarthImageURL` builds from
`baseURLTemplate`, `lon`, `lat` and `apiKey` (main.go:102, 108). -/
def earthBaseURL {W F : Type} (env : Env W F) (lon lat : F) : Template :=
  fun dateStr =>
    "https://api.nasa.gov/planetary/earth/imagery?lon=" ++ env.fmtF lon
      ++ "&lat=" ++ env.fmtF lat ++ "&date=" ++ dateStr ++ "&dim=0.2&api_key="
      ++ apiKey

/-- The extraction closure of `getRandomEarthImageURL` (main.go:110-113). -/
def earthProcessResponse {W : Type} : Extract W := fun _ w => some ("", none, w)

/-- The loop of `getRandomEarthImageURL` (main.go:104-119) with `remaining`
iterations still to run (`5 - i`). -/
def earthLoop {W F : Type} (env : Env W F) :
    Nat → W → List Attempt → Option (Result W)
  | 0, w, log => some ⟨"", some "failed to get Earth image after 5 attempts", w, log⟩
  | remaining + 1, w, log =>
    let (r1, w1) := env.randFloat64 w
    let lat := env.fadd (env.fconst (-90)) (env.fmul r1 (env.fconst 180))
    let (r2, w2) := env.randFloat64 w1
    let lon := env.fadd (env.fconst (-180)) (env.fmul r2 (env.fconst 360))
    let baseURL := earthBaseURL env lon lat
    match getImageURLWithRollingDate env baseURL earthProcessResponse 3 .nil w2 with
    | none => none
    | some r =>
      match r.err with
      | none => some ⟨r.url, none, r.world, log ++ r.attempts⟩
      | some _ => earthLoop env remaining r.world (log ++ r.attempts)

/-- The function `getRandomEarthImageURL` (main.go:101). -/
def getRandomEarthImageURL {W F : Type} (env : Env W F) (w : W) : Option (Result W) :=
  earthLoop env 5 w []

/-- The request URL of `getEpicImageURL` (main.go:132). -/
def epicAPIURL : String := "https://api.nasa.gov/EPIC/api/natural?api_key=" ++ apiKey

/-- The URL construction of `getEpicImageURL` (main.go:149-151) for the chosen
record; `none` if indexing the split result panics. -/
def epicImageURL (img : EpicImage) : Option String :=
  match (Split img.Date ' ')[0]? with
  | none => none
  | some dateParts =>
    let datePath := ReplaceAll dateParts '-' '/'
    some ("https://epic.gsfc.nasa.gov/archive/natural/" ++ datePath ++ "/png/"
      ++ img.Image ++ ".png")

/-- The function `getEpicImageURL` (main.go:131). It makes no rolling-date
attempt, so `attempts` is empty. -/
def getEpicImageURL {W F : Type} (env : Env W F) (w : W) : Option (Result W) :=
  match env.httpGet epicAPIURL w with
  | (.failed err, w1) => some ⟨"", some err, w1, []⟩
  | (.response _ (.error err), w1) => some ⟨"", some err, w1, []⟩
  | (.response _ (.ok body), w1) =>
    match env.decodeEpic body with
    | .error err => some ⟨"", some err, w1, []⟩
    | .ok data =>
      if data.length = 0 then some ⟨"", some "no EPIC images available", w1, []⟩
      else
        match Intn env data.length w1 with
        | none => none
        | some (i, w2) =>
          match data[i]? with
          | none => none
          | some img =>
            match epicImageURL img with
            | none => none
            | some imageURL => some ⟨imageURL, none, w2, []⟩

/-! ## A scripted environment, for concrete runs -/

/-- A scripted world: the responses the transport will give to the coming
`http.Get` calls, the coming raw random values, the coming `rand.Float64()`
values (in thousandths), and the calendar day. -/
structure World where
  responses : List HttpResult
  draws : List Nat
  floats : List Int
  today : Int

/-- Two decimal digits of a number below 100. -/
def twoDigits (n : Nat) : String :=
  String.mk [Char.ofNat (48 + n / 10 % 10), Char.ofNat (48 + n % 10)]

/-- Four decimal digits of a number below 10000. -/
def fourDigits (n : Nat) : String := twoDigits (n / 100) ++ twoDigits (n % 100)

/-- The layout `2006-01-02` of a day number counted from 1970-01-01, for years
0 to 9999 (the civil-from-days computation). -/
def civilDate (d : Int) : String :=
  let z := d + 719468
  let era := z / 146097
  let doe := z % 146097
  let yoe := (doe - doe / 1460 + doe / 36524 - doe / 146096) / 365
  let doy := doe - (365 * yoe + yoe / 4 - yoe / 100)
  let mp := (5 * doy + 2) / 153
  let day := doy - (153 * mp + 2) / 5 + 1
  let month := if mp < 10 then mp + 3 else mp - 9
  let year := yoe + era * 400 + (if month ≤ 2 then 1 else 0)
  fourDigits year.toNat ++ "-" ++ twoDigits month.toNat ++ "-" ++ twoDigits day.toNat

/-- The verb `%f` on a number given in thousandths. -/
def fmtMilli (x : Int) : String :=
  (if x < 0 then "-" else "") ++ toString (x.natAbs / 1000) ++ "."
    ++ String.mk [Char.ofNat (48 + x.natAbs / 100 % 10)] ++ twoDigits (x.natAbs % 100) ++ "000"

/-- A photo list body with no photo. -/
def bodyNoPhotos : String := "\x7b\"photos\":[]\x7d"

/-- A photo list body with two photos. -/
def bodyTwoPhotos : String :=
  "\x7b\"photos\":[\x7b\"img_src\":\"http://mars.example/a.jpg\"\x7d,\x7b\"img_src\":\"\"\x7d]\x7d"

/-- An API error body. -/
def bodyRateLimit : String := "\x7b\"msg\":\"rate limit\"\x7d"

/-- An EPIC body with one record. -/
def bodyEpic : String :=
  "[\x7b\"image\":\"epic_1b_20240307112233\",\"date\":\"2024-03-07 11:22:33\"\x7d]"

/-- The scripted environment: the transport answers from the script (and
fails once the script is used up), and the decoders know the sample bodies. -/
def sampleEnv : Env World Int where
  httpGet := fun _ w =>
    match w.responses with
    | [] => (.failed "dial tcp: connection refused", w)
    | r :: rs => (r, { w with responses := rs })
  timeNow := fun w => (w.today, w)
  formatDate := civilDate
  randInt := fun w =>
    match w.draws with
    | [] => (0, w)
    | d :: ds => (d, { w with draws := ds })
  randFloat64 := fun w =>
    match w.floats with
    | [] => (0, w)
    | x :: xs => (x, { w with floats := xs })
  fconst := fun c => c * 1000
  fadd := fun a b => a + b
  fmul := fun a b => a * b / 1000
  fmtF := fmtMilli
  unmarshalErrorResponse := fun b =>
    if b = bodyRateLimit then some ⟨"rate limit"⟩
    else if b = bodyNoPhotos ∨ b = bodyTwoPhotos then some ⟨""⟩
    else none
  unmarshalNil := fun _ => "json: Unmarshal(nil)"
  unmarshalMars := fun b r =>
    if b = bodyNoPhotos then (none, ⟨[]⟩)
    else if b = bodyTwoPhotos then
      (none, ⟨[⟨"http://mars.example/a.jpg"⟩, ⟨""⟩]⟩)
    else (some "invalid character", r)
  decodeEpic := fun b =>
    if b = bodyEpic then .ok [⟨"epic_1b_20240307112233", "2024-03-07 11:22:33"⟩]
    else if b = "[]" then .ok []
    else .error "invalid character"

/-- The environment whose transport fails on every call. -/
def offlineEnv : Env World Int :=
  { sampleEnv with httpGet := fun _ w => (.failed "dial tcp: no route to host", w) }

/-- A world on 2024-03-07 (day 19789) with the given scripts. -/
def worldOn (responses : List HttpResult) (draws : List Nat) (floats : List Int) : World :=
  ⟨responses, draws, floats, 19789⟩

/-- A world that records the transport's use: the URLs passed to `http.Get`
so far, in order, the coming `rand.Float64()` values (in thousandths), and the
calendar day. -/
structure Recorder where
  requested : List String
  floats : List Int
  today : Int
deriving DecidableEq, Repr

/-- A body holding the empty JSON object. -/
def bodyEmptyObject : String := "\x7b\x7d"

/-- The environment whose transport records the URL and then fails. -/
def recordingEnv : Env Recorder Int where
  httpGet := fun url w =>
    (.failed "dial tcp: no route to host", { w with requested := w.requested ++ [url] })
  timeNow := fun w => (w.today, w)
  formatDate := civilDate
  randInt := fun w => (0, w)
  randFloat64 := fun w =>
    match w.floats with
    | [] => (0, w)
    | x :: xs => (x, { w with floats := xs })
  fconst := fun c => c * 1000
  fadd := fun a b => a + b
  fmul := fun a b => a * b / 1000
  fmtF := fmtMilli
  unmarshalErrorResponse := fun b =>
    if b = bodyEmptyObject then some ⟨""⟩ else sampleEnv.unmarshalErrorResponse b
  unmarshalNil := fun _ => "json: Unmarshal(nil)"
  unmarshalMars := fun b r =>
    if b = bodyEmptyObject then (none, r) else sampleEnv.unmarshalMars b r
  decodeEpic := sampleEnv.decodeEpic

/-- The environment whose transport records the URL and then answers with
the empty JSON object: a fetch into a `*MarsResponse` succeeds, a fetch into
the nil interface fails. -/
def jsonEnv : Env Recorder Int :=
  { recordingEnv with
    httpGet := fun url w =>
      (.response "application/json" (.ok bodyEmptyObject),
        { w with requested := w.requested ++ [url] }) }

/-- The world of the concrete run for C7: ten `rand.Float64()` values to come,
on 2024-03-07. -/
def earthStart : Recorder :=
  ⟨[], [250, 500, 100, 900, 750, 125, 0, 999, 600, 400], 19789⟩

/-- The script of the concrete run for C2: a transport error, an empty photo
list, then a list of two photos. -/
def scriptThird : List HttpResult :=
  [.failed "i/o timeout", .response "application/json" (.ok bodyNoPhotos),
   .response "application/json" (.ok bodyTwoPhotos)]

/-- The script of the concrete run for C3: a transport error, then an image. -/
def scriptImage : List HttpResult :=
  [.failed "i/o timeout", .response "image/png" (.ok "PNG")]

/-- The script of the concrete run for C4: an API error body, then an empty
photo list. -/
def scriptNothing : List HttpResult :=
  [.response "application/json" (.ok bodyRateLimit),
   .response "application/json" (.ok bodyNoPhotos)]

/-- The script of the concrete run for C9: a transport error, then a list of
two photos. -/
def scriptSecond : List HttpResult :=
  [.failed "i/o timeout", .response "application/json" (.ok bodyTwoPhotos)]

/-! ## Specification-level definitions -/

/-- The attempts of a run that tries `n` consecutive dates, `today` first:
entry `i` has date `today - i` and the URL built from it. -/
def rollingAttempts {W F : Type} (env : Env W F) (baseURL : Template) (today : Int)
    (n : Nat) : List Attempt :=
  (List.range n).map
    (fun (i : Nat) => ⟨today - (i : Int), baseURL (env.formatDate (today - (i : Int)))⟩)

/-- The attempt at `date` with `resultType = rt` in world `w` fails and leaves
`rt1` and `w1`: the fetch fails, or it succeeds and the extraction function
returns an error. -/
def AttemptFails {W F : Type} (env : Env W F) (baseURL : Template)
    (processResponse : Extract W) (date : Int) (rt : Iface) (w : W) (rt1 : Iface)
    (w1 : W) : Prop :=
  (∃ e, fetchAPIResponse env (baseURL (env.formatDate date)) rt w = (some e, rt1, w1)) ∨
  (∃ wf s e, fetchAPIResponse env (baseURL (env.formatDate date)) rt w = (none, rt1, wf) ∧
    processResponse rt1 wf = some (s, some e, w1))

/-- The string consists of exactly `n` decimal digits. -/
def isDigits (s : String) (n : Nat) : Bool :=
  s.length == n && s.data.all Char.isDigit

/-- The latitude `getRandomEarthImageURL` computes from a draw (main.go:105). -/
def earthLat {W F : Type} (env : Env W F) (r : F) : F :=
  env.fadd (env.fconst (-90)) (env.fmul r (env.fconst 180))

/-- The longitude `getRandomEarthImageURL` computes from a draw (main.go:106). -/
def earthLon {W F : Type} (env : Env W F) (r : F) : F :=
  env.fadd (env.fconst (-180)) (env.fmul r (env.fconst 360))

/-- The attempts of the coordinate attempts `cs`, each given by its latitude
draw, its longitude draw and the day it started on, when every one of them
runs through its three dates. -/
def earthAttempts {W F : Type} (env : Env W F) (cs : List (F × F × Int)) : List Attempt :=
  cs.flatMap (fun c =>
    rollingAttempts env (earthBaseURL env (earthLon env c.2.1) (earthLat env c.1)) c.2.2 3)

/-- The `resultType` and the world left by `n` consecutive calls of
`fetchAPIResponse` on the URLs built for `date`, `date - 1`, ..., each call
starting from what the previous one left. -/
def afterFetches {W F : Type} (env : Env W F) (baseURL : Template) :
    Nat → Int → Iface → W → Iface × W
  | 0, _, rt, w => (rt, w)
  | n + 1, date, rt, w =>
    let out := fetchAPIResponse env (baseURL (env.formatDate date)) rt w
    afterFetches env baseURL n (date - 1) out.2.1 out.2.2

/-- The coordinate attempts of `k` rounds from world `w`, and the world they
leave, when each round draws a latitude, draws a longitude, reads the clock
and then calls `fetchAPIResponse` three times with the nil interface, on the
URLs built from the coordinates and the dates today, today - 1, today - 2.
Each attempt is given by its latitude draw, its longitude draw and its day. -/
def earthRounds {W F : Type} (env : Env W F) : Nat → W → List (F × F × Int) × W
  | 0, w => ([], w)
  | k + 1, w =>
    let d1 := env.randFloat64 w
    let d2 := env.randFloat64 d1.2
    let t := env.timeNow d2.2
    let wEnd := (afterFetches env
      (earthBaseURL env (earthLon env d2.1) (earthLat env d1.1)) 3 t.1 .nil t.2).2
    let rest := earthRounds env k wEnd
    ((d1.1, d2.1, t.1) :: rest.1, rest.2)

/-! ## Lemmas on the rolling-date loop -/

theorem rollingAttempts_zero {W F : Type} (env : Env W F) (baseURL : Template)
    (today : Int) : rollingAttempts env baseURL today 0 = [] := rfl

theorem rollingAttempts_succ {W F : Type} (env : Env W F) (baseURL : Template)
    (today : Int) (n : Nat) :
    rollingAttempts env baseURL today (n + 1) =
      ⟨today, baseURL (env.formatDate today)⟩ :: rollingAttempts env baseURL (today - 1) n := by
  unfold rollingAttempts
  rw [List.range_succ_eq_map]
  simp only [List.map_cons, List.map_map, Nat.cast_zero, sub_zero]
  congr 1
  apply List.map_congr_left
  intro i _
  simp only [Function.comp_apply, Nat.cast_succ]
  have h : today - ((i : Int) + 1) = today - 1 - i := by omega
  rw [h]

theorem rollingAttempts_length {W F : Type} (env : Env W F) (baseURL : Template)
    (today : Int) (n : Nat) : (rollingAttempts env baseURL today n).length = n := by
  simp [rollingAttempts]

theorem rollingAttempts_dates {W F : Type} (env : Env W F) (baseURL : Template)
    (today : Int) (n : Nat) :
    (rollingAttempts env baseURL today n).map Attempt.date =
      (List.range n).map (fun (i : Nat) => today - (i : Int)) := by
  simp [rollingAttempts, Function.comp_def]

theorem rollLoop_step_fail {W F : Type} (env : Env W F) (baseURL : Template)
    (processResponse : Extract W) (n : Nat) (date : Int) (rt : Iface) (w : W)
    (rt1 : Iface) (w1 : W) (log : List Attempt)
    (h : AttemptFails env baseURL processResponse date rt w rt1 w1) :
    rollLoop env baseURL processResponse (n + 1) date rt w log =
      rollLoop env baseURL processResponse n (date - 1) rt1 w1
        (log ++ [⟨date, baseURL (env.formatDate date)⟩]) := by
  rcases h with ⟨e, h⟩ | ⟨wf, s, e, h, hp⟩
  · simp only [rollLoop, h]
  · simp only [rollLoop, h, hp]

theorem rollLoop_step_ok {W F : Type} (env : Env W F) (baseURL : Template)
    (processResponse : Extract W) (n : Nat) (date : Int) (rt : Iface) (w : W)
    (rt1 : Iface) (wf w1 : W) (log : List Attempt) (imgURL : String)
    (h : fetchAPIResponse env (baseURL (env.formatDate date)) rt w = (none, rt1, wf))
    (hp : processResponse rt1 wf = some (imgURL, none, w1)) :
    rollLoop env baseURL processResponse (n + 1) date rt w log =
      some ⟨if imgURL ≠ "" then imgURL else baseURL (env.formatDate date), none, w1,
        log ++ [⟨date, baseURL (env.formatDate date)⟩]⟩ := by
  simp only [rollLoop, h, hp]
  split <;> rfl

theorem rollLoop_after_failures {W F : Type} (env : Env W F) (baseURL : Template)
    (processResponse : Extract W) (m n : Nat) :
    ∀ (date : Int) (rts : Nat → Iface) (ws : Nat → W) (log : List Attempt),
      (∀ j, j < m → AttemptFails env baseURL processResponse (date - (j : Int))
        (rts j) (ws j) (rts (j + 1)) (ws (j + 1))) →
      rollLoop env baseURL processResponse (m + n) date (rts 0) (ws 0) log =
        rollLoop env baseURL processResponse n (date - (m : Int)) (rts m) (ws m)
          (log ++ rollingAttempts env baseURL date m) := by
  induction m with
  | zero =>
    intro date rts ws log _
    simp [rollingAttempts_zero]
  | succ m ih =>
    intro date rts ws log h
    have h0 := h 0 (Nat.succ_pos m)
    simp only [Nat.cast_zero, sub_zero, zero_add] at h0
    have e1 : m + 1 + n = (m + n) + 1 := by omega
    rw [e1, rollLoop_step_fail env baseURL processResponse (m + n) date (rts 0) (ws 0)
      (rts 1) (ws 1) log h0]
    have ih1 := ih (date - 1) (fun j => rts (j + 1)) (fun j => ws (j + 1))
      (log ++ [⟨date, baseURL (env.formatDate date)⟩]) (by
        intro j hj
        have hj1 := h (j + 1) (Nat.succ_lt_succ hj)
        have e2 : date - ((j + 1 : Nat) : Int) = date - 1 - (j : Int) := by
          push_cast; omega
        rw [e2] at hj1
        exact hj1)
    simp only [zero_add] at ih1
    rw [ih1, rollingAttempts_succ, List.append_assoc, List.singleton_append]
    have e3 : date - ((m + 1 : Nat) : Int) = date - 1 - (m : Int) := by
      push_cast; omega
    rw [e3]

theorem rollLoop_all_fetch_fail {W F : Type} (env : Env W F) (baseURL : Template)
    (processResponse : Extract W) (P : Iface → Prop)
    (hP : ∀ url rt w, P rt → P (fetchAPIResponse env url rt w).2.1)
    (hfail : ∀ url rt w, P rt → (fetchAPIResponse env url rt w).1 ≠ none) (n : Nat) :
    ∀ (date : Int) (rt : Iface) (w : W) (log : List Attempt), P rt →
      rollLoop env baseURL processResponse n date rt w log =
        some ⟨"", some "no images found", (afterFetches env baseURL n date rt w).2,
          log ++ rollingAttempts env baseURL date n⟩ := by
  induction n with
  | zero =>
    intro date rt w log _
    simp [rollLoop, rollingAttempts_zero, afterFetches]
  | succ n ih =>
    intro date rt w log hrt
    rcases hf : fetchAPIResponse env (baseURL (env.formatDate date)) rt w with ⟨e, rt1, w1⟩
    have hrt1 : P rt1 := by
      have := hP (baseURL (env.formatDate date)) rt w hrt
      rw [hf] at this
      exact this
    cases e with
    | none =>
      exact absurd (by rw [hf]) (hfail (baseURL (env.formatDate date)) rt w hrt)
    | some e =>
      rw [rollLoop_step_fail env baseURL processResponse n date rt w rt1 w1 log
        (Or.inl ⟨e, hf⟩), ih (date - 1) rt1 w1 _ hrt1, rollingAttempts_succ,
        List.append_assoc, List.singleton_append]
      simp only [afterFetches, hf]

theorem fetchAPIResponse_nil {W F : Type} (env : Env W F) (url : String) (w : W) :
    (fetchAPIResponse env url .nil w).2.1 = .nil := by
  unfold fetchAPIResponse
  split
  · rfl
  · split
    · split <;> rfl
    · split
      · rfl
      · split
        · split
          · rfl
          · rfl
        · rfl

theorem dates_chain (today : Int) (n : Nat) :
    List.Chain' (fun a b : Int => b = a - 1)
      ((List.range n).map (fun (i : Nat) => today - (i : Int))) := by
  induction n generalizing today with
  | zero => simp
  | succ n ih =>
    rw [List.range_succ_eq_map]
    simp only [List.map_cons, List.map_map, Nat.cast_zero, sub_zero]
    have e : ((fun (i : Nat) => today - (i : Int)) ∘ Nat.succ) =
        (fun (i : Nat) => today - 1 - (i : Int)) := by
      funext i
      simp only [Function.comp_apply, Nat.cast_succ]
      omega
    rw [e]
    have ih1 := ih (today - 1)
    cases n with
    | zero => simp
    | succ k =>
      rw [List.range_succ_eq_map] at ih1 ⊢
      simp only [List.map_cons, List.map_map, Nat.cast_zero, sub_zero] at ih1 ⊢
      exact List.Chain'.cons rfl ih1

theorem dates_nodup (today : Int) (n : Nat) :
    ((List.range n).map (fun (i : Nat) => today - (i : Int))).Nodup := by
  apply List.Nodup.map _ (List.nodup_range n)
  intro a b hab
  simp only at hab
  omega

theorem resolver_after_failures {W F : Type} (env : Env W F) (baseURL : Template)
    (processResponse : Extract W) (m n : Nat) (hmn : m ≤ n) (w : W) (today : Int)
    (rts : Nat → Iface) (ws : Nat → W) (hnow : env.timeNow w = (today, ws 0))
    (hfailed : ∀ j, j < m → AttemptFails env baseURL processResponse (today - (j : Int))
      (rts j) (ws j) (rts (j + 1)) (ws (j + 1))) :
    getImageURLWithRollingDate env baseURL processResponse (n : Int) (rts 0) w =
      rollLoop env baseURL processResponse (n - m) (today - (m : Int)) (rts m) (ws m)
        (rollingAttempts env baseURL today m) := by
  have e : n = m + (n - m) := by omega
  simp only [getImageURLWithRollingDate, Int.toNat_ofNat, hnow]
  conv_lhs => rw [e]
  rw [rollLoop_after_failures env baseURL processResponse m (n - m) today rts ws [] hfailed,
    List.nil_append]

theorem rollingAttempts_snoc {W F : Type} (env : Env W F) (baseURL : Template)
    (today : Int) (m : Nat) :
    rollingAttempts env baseURL today m ++
        [⟨today - (m : Int), baseURL (env.formatDate (today - (m : Int)))⟩] =
      rollingAttempts env baseURL today (m + 1) := by
  simp [rollingAttempts, List.range_succ]

/-! ## Lemmas on selection and on the EPIC path -/

theorem Intn_of_pos {W F : Type} (env : Env W F) (n : Nat) (w : W) (hn : n ≠ 0) :
    Intn env n w = some ((env.randInt w).1 % n, (env.randInt w).2) := by
  simp [Intn, hn]

theorem Intn_lt {W F : Type} (env : Env W F) (n : Nat) (w w1 : W) (i : Nat)
    (h : Intn env n w = some (i, w1)) : i < n := by
  unfold Intn at h
  split at h
  · exact absurd h (by simp)
  · rename_i hn
    simp only [Option.some.injEq, Prod.mk.injEq] at h
    rw [← h.1]
    exact Nat.mod_lt _ (Nat.pos_of_ne_zero hn)

theorem marsProcessResponse_nonempty {W F : Type} (env : Env W F) (photos : List MarsPhoto)
    (w : W) (hne : photos ≠ []) :
    ∃ photo, photos[(env.randInt w).1 % photos.length]? = some photo ∧
      marsProcessResponse env (.marsResponse ⟨photos⟩) w =
        some (photo.ImgSrc, none, (env.randInt w).2) := by
  have hlen : photos.length ≠ 0 := by
    intro h
    exact hne (List.length_eq_zero.mp h)
  have hlt : (env.randInt w).1 % photos.length < photos.length :=
    Nat.mod_lt _ (Nat.pos_of_ne_zero hlen)
  refine ⟨photos[(env.randInt w).1 % photos.length], List.getElem?_eq_getElem hlt, ?_⟩
  simp only [marsProcessResponse, hlen, if_false, Intn_of_pos env _ w hlen,
    List.getElem?_eq_getElem hlt]

theorem marsProcessResponse_empty {W F : Type} (env : Env W F) (w : W) :
    marsProcessResponse env (.marsResponse ⟨[]⟩) w = some ("", some "no Mars images found", w) := by
  simp [marsProcessResponse]

theorem marsProcessResponse_total {W F : Type} (env : Env W F) (data : Iface) (w : W) :
    ∃ out, marsProcessResponse env data w = some out := by
  cases data with
  | nil => exact ⟨_, rfl⟩
  | marsResponse r =>
    obtain ⟨photos⟩ := r
    by_cases hne : photos = []
    · subst hne
      exact ⟨_, marsProcessResponse_empty env w⟩
    · obtain ⟨photo, _, h⟩ := marsProcessResponse_nonempty env photos w hne
      exact ⟨_, h⟩

theorem splitChars_ne_nil (sep : Char) (l : List Char) : splitChars sep l ≠ [] := by
  induction l with
  | nil => simp [splitChars]
  | cons c cs ih =>
    unfold splitChars
    split
    · simp
    · split <;> simp

theorem splitChars_first (sep : Char) (pre rest : List Char) (h : sep ∉ pre) :
    splitChars sep (pre ++ sep :: rest) = pre :: splitChars sep rest := by
  induction pre with
  | nil => simp [splitChars]
  | cons c cs ih =>
    have hc : c ≠ sep := fun e => h (by simp [e])
    have hcs : sep ∉ cs := fun e => h (by simp [e])
    have e : (c :: cs) ++ sep :: rest = c :: (cs ++ sep :: rest) := rfl
    rw [e]
    simp only [splitChars, hc, if_false]
    rw [ih hcs]

theorem Split_head_some (s : String) (sep : Char) :
    ∃ first, (Split s sep)[0]? = some first := by
  unfold Split
  cases h : splitChars sep s.data with
  | nil => exact absurd h (splitChars_ne_nil sep s.data)
  | cons p ps => exact ⟨String.mk p, by simp⟩

theorem Split_first (pre rest : String) (sep : Char) (h : sep ∉ pre.data) :
    (Split (pre ++ String.mk [sep] ++ rest) sep)[0]? = some pre := by
  unfold Split
  have e : (pre ++ String.mk [sep] ++ rest).data = pre.data ++ sep :: rest.data := by
    simp [String.data_append]
  rw [e, splitChars_first sep pre.data rest.data h]
  simp

theorem ReplaceAll_append (a b : String) (old new : Char) :
    ReplaceAll (a ++ b) old new = ReplaceAll a old new ++ ReplaceAll b old new := by
  unfold ReplaceAll
  apply String.ext
  simp [String.data_append]

theorem ReplaceAll_of_not_mem (s : String) (old new : Char) (h : old ∉ s.data) :
    ReplaceAll s old new = s := by
  unfold ReplaceAll
  apply String.ext
  simp only
  conv_rhs => rw [← List.map_id s.data]
  apply List.map_congr_left
  intro c hc
  have : c ≠ old := fun e => h (e ▸ hc)
  simp [this]

theorem epicImageURL_total (img : EpicImage) : ∃ url, epicImageURL img = some url := by
  obtain ⟨first, h⟩ := Split_head_some img.Date ' '
  refine ⟨"https://epic.gsfc.nasa.gov/archive/natural/" ++ ReplaceAll first '-' '/' ++ "/png/"
    ++ img.Image ++ ".png", ?_⟩
  simp only [epicImageURL, h]

theorem epicImageURL_of_date_part (id pre rest : String) (h : ' ' ∉ pre.data) :
    epicImageURL ⟨id, pre ++ " " ++ rest⟩ =
      some ("https://epic.gsfc.nasa.gov/archive/natural/" ++ ReplaceAll pre '-' '/' ++ "/png/"
        ++ id ++ ".png") := by
  have h1 := Split_first pre rest ' ' h
  simp only [epicImageURL]
  rw [show (" " : String) = String.mk [' '] from rfl, h1]

theorem isDigits_not_mem (s : String) (n : Nat) (h : isDigits s n = true) (c : Char)
    (hc : c.isDigit = false) : c ∉ s.data := by
  intro hmem
  simp only [isDigits, Bool.and_eq_true, List.all_eq_true] at h
  have := h.2 c hmem
  rw [hc] at this
  exact absurd this (by decide)

theorem date_path_of_digits (y mo d : String) (hy : isDigits y 4 = true)
    (hmo : isDigits mo 2 = true) (hd : isDigits d 2 = true) :
    ' ' ∉ (y ++ "-" ++ mo ++ "-" ++ d).data ∧
      ReplaceAll (y ++ "-" ++ mo ++ "-" ++ d) '-' '/' = y ++ "/" ++ mo ++ "/" ++ d := by
  have sy := isDigits_not_mem y 4 hy ' ' (by decide)
  have smo := isDigits_not_mem mo 2 hmo ' ' (by decide)
  have sd := isDigits_not_mem d 2 hd ' ' (by decide)
  have dy := isDigits_not_mem y 4 hy '-' (by decide)
  have dmo := isDigits_not_mem mo 2 hmo '-' (by decide)
  have dd := isDigits_not_mem d 2 hd '-' (by decide)
  constructor
  · simp only [String.data_append, List.mem_append, not_or]
    exact ⟨⟨⟨⟨sy, by decide⟩, smo⟩, by decide⟩, sd⟩
  · rw [ReplaceAll_append, ReplaceAll_append, ReplaceAll_append, ReplaceAll_append,
      ReplaceAll_of_not_mem y _ _ dy, ReplaceAll_of_not_mem mo _ _ dmo,
      ReplaceAll_of_not_mem d _ _ dd]
    rfl

theorem Intn_select {W F : Type} {α : Type} (env : Env W F) (l : List α) (w : W)
    (hne : l ≠ []) :
    ∃ i w1 a, Intn env l.length w = some (i, w1) ∧ i < l.length ∧ l[i]? = some a := by
  have hlen : l.length ≠ 0 := fun h => hne (List.length_eq_zero.mp h)
  have hlt : (env.randInt w).1 % l.length < l.length :=
    Nat.mod_lt _ (Nat.pos_of_ne_zero hlen)
  exact ⟨_, _, l[(env.randInt w).1 % l.length], Intn_of_pos env _ w hlen, hlt,
    List.getElem?_eq_getElem hlt⟩

theorem getEpicImageURL_cases {W F : Type} (env : Env W F) (w : W) :
    ∃ r, getEpicImageURL env w = some r ∧
      (r.err = none ∨ r.err = some "no EPIC images available" ∨
        (∃ e w1, env.httpGet epicAPIURL w = (.failed e, w1) ∧ r.err = some e) ∨
        (∃ ct e w1, env.httpGet epicAPIURL w = (.response ct (.error e), w1) ∧
          r.err = some e) ∨
        (∃ ct body e w1, env.httpGet epicAPIURL w = (.response ct (.ok body), w1) ∧
          env.decodeEpic body = .error e ∧ r.err = some e)) := by
  rcases hget : env.httpGet epicAPIURL w with ⟨res, w1⟩
  cases res with
  | failed e =>
    exact ⟨⟨"", some e, w1, []⟩, by simp only [getEpicImageURL, hget],
      Or.inr (Or.inr (Or.inl ⟨e, w1, rfl, rfl⟩))⟩
  | response ct body =>
    cases body with
    | error e =>
      exact ⟨⟨"", some e, w1, []⟩, by simp only [getEpicImageURL, hget],
        Or.inr (Or.inr (Or.inr (Or.inl ⟨ct, e, w1, rfl, rfl⟩)))⟩
    | ok body =>
      cases hdec : env.decodeEpic body with
      | error e =>
        exact ⟨⟨"", some e, w1, []⟩, by simp only [getEpicImageURL, hget, hdec],
          Or.inr (Or.inr (Or.inr (Or.inr ⟨ct, body, e, w1, rfl, hdec, rfl⟩)))⟩
      | ok data =>
        by_cases hne : data = []
        · subst hne
          exact ⟨⟨"", some "no EPIC images available", w1, []⟩,
            by simp [getEpicImageURL, hget, hdec], Or.inr (Or.inl rfl)⟩
        · obtain ⟨j, w2, img, hdraw, _, himg⟩ := Intn_select env data w1 hne
          obtain ⟨url, hurl⟩ := epicImageURL_total img
          have hlen : data.length ≠ 0 := fun h => hne (List.length_eq_zero.mp h)
          exact ⟨⟨url, none, w2, []⟩,
            by simp only [getEpicImageURL, hget, hdec, hlen, if_false, hdraw, himg, hurl],
            Or.inl rfl⟩

/-! ## Lemmas on the errors of the providers -/

theorem rollLoop_errors {W F : Type} (env : Env W F) (baseURL : Template)
    (processResponse : Extract W)
    (htotal : ∀ rt w, ∃ out, processResponse rt w = some out) (n : Nat) :
    ∀ (date : Int) (rt : Iface) (w : W) (log : List Attempt),
      ∃ r, rollLoop env baseURL processResponse n date rt w log = some r ∧
        (r.err = none ∨ (r.err = some "no images found" ∧ r.url = "")) := by
  induction n with
  | zero =>
    intro date rt w log
    exact ⟨_, rfl, Or.inr ⟨rfl, rfl⟩⟩
  | succ n ih =>
    intro date rt w log
    rcases hf : fetchAPIResponse env (baseURL (env.formatDate date)) rt w with ⟨e, rt1, w1⟩
    cases e with
    | some e =>
      rw [rollLoop_step_fail env baseURL processResponse n date rt w rt1 w1 log
        (Or.inl ⟨e, hf⟩)]
      exact ih _ _ _ _
    | none =>
      obtain ⟨⟨imgURL, err, w2⟩, hp⟩ := htotal rt1 w1
      cases err with
      | some e =>
        rw [rollLoop_step_fail env baseURL processResponse n date rt w rt1 w2 log
          (Or.inr ⟨w1, imgURL, e, hf, hp⟩)]
        exact ih _ _ _ _
      | none =>
        rw [rollLoop_step_ok env baseURL processResponse n date rt w rt1 w1 w2 log imgURL
          hf hp]
        exact ⟨_, rfl, Or.inl rfl⟩

theorem earthLoop_step {W F : Type} (env : Env W F) (k : Nat) (w : W)
    (log : List Attempt) (r : Result W)
    (hr : getImageURLWithRollingDate env
      (earthBaseURL env (earthLon env (env.randFloat64 (env.randFloat64 w).2).1)
        (earthLat env (env.randFloat64 w).1))
      earthProcessResponse 3 .nil (env.randFloat64 (env.randFloat64 w).2).2 = some r) :
    earthLoop env (k + 1) w log =
      match r.err with
      | none => some ⟨r.url, none, r.world, log ++ r.attempts⟩
      | some _ => earthLoop env k r.world (log ++ r.attempts) := by
  simp only [earthLoop]
  rw [show earthBaseURL env
      (env.fadd (env.fconst (-180))
        (env.fmul (env.randFloat64 (env.randFloat64 w).2).1 (env.fconst 360)))
      (env.fadd (env.fconst (-90)) (env.fmul (env.randFloat64 w).1 (env.fconst 180))) =
    earthBaseURL env (earthLon env (env.randFloat64 (env.randFloat64 w).2).1)
      (earthLat env (env.randFloat64 w).1) from rfl, hr]

theorem earthLoop_errors {W F : Type} (env : Env W F) (k : Nat) :
    ∀ (w : W) (log : List Attempt),
      ∃ r, earthLoop env k w log = some r ∧
        (r.err = none ∨
          (r.err = some "failed to get Earth image after 5 attempts" ∧ r.url = "")) := by
  induction k with
  | zero =>
    intro w log
    exact ⟨_, rfl, Or.inr ⟨rfl, rfl⟩⟩
  | succ k ih =>
    intro w log
    obtain ⟨r, hr, _⟩ := rollLoop_errors env
      (earthBaseURL env (earthLon env (env.randFloat64 (env.randFloat64 w).2).1)
        (earthLat env (env.randFloat64 w).1))
      earthProcessResponse (fun _ w0 => ⟨_, rfl⟩) 3
      (env.timeNow (env.randFloat64 (env.randFloat64 w).2).2).1 .nil
      (env.timeNow (env.randFloat64 (env.randFloat64 w).2).2).2 []
    rw [earthLoop_step env k w log r hr]
    cases herr : r.err with
    | none => exact ⟨_, rfl, Or.inl rfl⟩
    | some e => exact ih r.world (log ++ r.attempts)

theorem earthLoop_all_fetch_fail {W F : Type} (env : Env W F)
    (hfail : ∀ url w, (fetchAPIResponse env url .nil w).1 ≠ none) (k : Nat) :
    ∀ (w : W) (log : List Attempt),
      earthLoop env k w log =
        some ⟨"", some "failed to get Earth image after 5 attempts", (earthRounds env k w).2,
          log ++ earthAttempts env (earthRounds env k w).1⟩ := by
  induction k with
  | zero =>
    intro w log
    simp [earthLoop, earthAttempts, earthRounds]
  | succ k ih =>
    intro w log
    have h1 := rollLoop_all_fetch_fail env
      (earthBaseURL env (earthLon env (env.randFloat64 (env.randFloat64 w).2).1)
        (earthLat env (env.randFloat64 w).1))
      earthProcessResponse (fun rt => rt = .nil)
      (fun url rt w0 hrt => by rw [hrt]; exact fetchAPIResponse_nil env url w0)
      (fun url rt w0 hrt => by rw [hrt]; exact hfail url w0) 3
      (env.timeNow (env.randFloat64 (env.randFloat64 w).2).2).1 .nil
      (env.timeNow (env.randFloat64 (env.randFloat64 w).2).2).2 [] rfl
    rw [earthLoop_step env k w log _ h1]
    simp only [List.nil_append]
    rw [ih]
    simp [earthAttempts, earthRounds, List.append_assoc]

theorem earthRounds_length {W F : Type} (env : Env W F) (k : Nat) :
    ∀ (w : W), (earthRounds env k w).1.length = k := by
  induction k with
  | zero => intro w; rfl
  | succ k ih =>
    intro w
    simp only [earthRounds, List.length_cons, ih]

theorem earthAttempts_length {W F : Type} (env : Env W F) (cs : List (F × F × Int)) :
    (earthAttempts env cs).length = 3 * cs.length := by
  induction cs with
  | nil => rfl
  | cons c cs ih =>
    have h : earthAttempts env (c :: cs) =
        rollingAttempts env (earthBaseURL env (earthLon env c.2.1) (earthLat env c.1)) c.2.2 3
          ++ earthAttempts env cs := by
      simp [earthAttempts]
    rw [h, List.length_append, rollingAttempts_length, ih, List.length_cons]
    omega

theorem marsBaseURL_ne_empty (dateStr : String) : marsBaseURL dateStr ≠ "" := by
  intro h
  have h1 := congrArg String.length h
  simp only [marsBaseURL, String.length_append] at h1
  have h2 : ("https://api.nasa.gov/mars-photos/api/v1/rovers/curiosity/photos?earth_date=" :
      String).length = 75 := by decide
  rw [h2] at h1
  have h3 : ("" : String).length = 0 := rfl
  omega

theorem earthBaseURL_ne_empty {W F : Type} (env : Env W F) (lon lat : F)
    (dateStr : String) : earthBaseURL env lon lat dateStr ≠ "" := by
  intro h
  have h1 := congrArg String.length h
  simp only [earthBaseURL, String.length_append] at h1
  have h2 : ("https://api.nasa.gov/planetary/earth/imagery?lon=" : String).length = 49 := by
    decide
  rw [h2] at h1
  have h3 : ("" : String).length = 0 := rfl
  omega

/-! ## The rolling-date resolver -/

/-- C1. If the fetch step fails on every call, `getImageURLWithRollingDate`
with `daysToRoll = n` returns the empty URL and the error "no images found",
in the world left by exactly n calls of `fetchAPIResponse` and no call of the
extraction function: the calls are made in order on the URLs built for today,
today - 1, ..., today - (n - 1), each from the world the previous one left.
The dates descend one day at a time from today and none repeats. -/
theorem rolling_date_all_fetches_fail {W F : Type} (env : Env W F) (baseURL : Template)
    (processResponse : Extract W) (n : Nat) (resultType : Iface) (w : W)
    (hfail : ∀ url rt w1, (fetchAPIResponse env url rt w1).1 ≠ none) :
    getImageURLWithRollingDate env baseURL processResponse (n : Int) resultType w =
        some ⟨"", some "no images found",
          (afterFetches env baseURL n (env.timeNow w).1 resultType (env.timeNow w).2).2,
          rollingAttempts env baseURL (env.timeNow w).1 n⟩ ∧
      (rollingAttempts env baseURL (env.timeNow w).1 n).length = n ∧
      (rollingAttempts env baseURL (env.timeNow w).1 n).map Attempt.date =
        (List.range n).map (fun (i : Nat) => (env.timeNow w).1 - (i : Int)) ∧
      ((rollingAttempts env baseURL (env.timeNow w).1 n).map Attempt.date).Chain'
        (fun a b => b = a - 1) ∧
      ((rollingAttempts env baseURL (env.timeNow w).1 n).map Attempt.date).Nodup := by
  have h1 := rollLoop_all_fetch_fail env baseURL processResponse (fun _ => True)
    (fun _ _ _ _ => trivial) (fun url rt w1 _ => hfail url rt w1) n
    (env.timeNow w).1 resultType (env.timeNow w).2 [] trivial
  refine ⟨?_, ?_, ?_, ?_, ?_⟩
  · simp only [getImageURLWithRollingDate, Int.toNat_ofNat]
    rw [h1, List.nil_append]
  · exact rollingAttempts_length env baseURL _ n
  · exact rollingAttempts_dates env baseURL _ n
  · rw [rollingAttempts_dates]; exact dates_chain _ n
  · rw [rollingAttempts_dates]; exact dates_nodup _ n

theorem recordingEnv_fetch_fails (url : String) (rt : Iface) (w : Recorder) :
    (fetchAPIResponse recordingEnv url rt w).1 ≠ none := by
  simp [fetchAPIResponse, recordingEnv]

/-- A concrete run for C1: three days from 2024-03-07 over the transport that
records and fails; the transport has been asked for exactly the three URLs,
in order. -/
theorem rolling_date_all_fetches_fail_witness :
    (getImageURLWithRollingDate recordingEnv marsBaseURL
          (marsProcessResponse recordingEnv) ((3 : Nat) : Int) (.marsResponse ⟨[]⟩)
          ⟨[], [], 19789⟩ =
        some ⟨"", some "no images found",
          (afterFetches recordingEnv marsBaseURL 3
            (recordingEnv.timeNow ⟨[], [], 19789⟩).1 (.marsResponse ⟨[]⟩)
            (recordingEnv.timeNow ⟨[], [], 19789⟩).2).2,
          rollingAttempts recordingEnv marsBaseURL
            (recordingEnv.timeNow ⟨[], [], 19789⟩).1 3⟩ ∧
      (rollingAttempts recordingEnv marsBaseURL
        (recordingEnv.timeNow ⟨[], [], 19789⟩).1 3).length = 3 ∧
      (rollingAttempts recordingEnv marsBaseURL
          (recordingEnv.timeNow ⟨[], [], 19789⟩).1 3).map Attempt.date =
        (List.range 3).map
          (fun (i : Nat) => (recordingEnv.timeNow ⟨[], [], 19789⟩).1 - (i : Int)) ∧
      ((rollingAttempts recordingEnv marsBaseURL
        (recordingEnv.timeNow ⟨[], [], 19789⟩).1 3).map Attempt.date).Chain'
        (fun a b => b = a - 1) ∧
      ((rollingAttempts recordingEnv marsBaseURL
        (recordingEnv.timeNow ⟨[], [], 19789⟩).1 3).map Attempt.date).Nodup) ∧
    Option.map (fun r => (r.url, r.err, r.world, r.attempts))
        (getImageURLWithRollingDate recordingEnv marsBaseURL
          (marsProcessResponse recordingEnv) ((3 : Nat) : Int) (.marsResponse ⟨[]⟩)
          ⟨[], [], 19789⟩) =
      some ("", some "no images found",
        ⟨["https://api.nasa.gov/mars-photos/api/v1/rovers/curiosity/photos?earth_date=2024-03-07&api_key=",
          "https://api.nasa.gov/mars-photos/api/v1/rovers/curiosity/photos?earth_date=2024-03-06&api_key=",
          "https://api.nasa.gov/mars-photos/api/v1/rovers/curiosity/photos?earth_date=2024-03-05&api_key="],
         [], 19789⟩,
        [⟨19789, "https://api.nasa.gov/mars-photos/api/v1/rovers/curiosity/photos?earth_date=2024-03-07&api_key="⟩,
         ⟨19788, "https://api.nasa.gov/mars-photos/api/v1/rovers/curiosity/photos?earth_date=2024-03-06&api_key="⟩,
         ⟨19787, "https://api.nasa.gov/mars-photos/api/v1/rovers/curiosity/photos?earth_date=2024-03-05&api_key="⟩]) :=
  ⟨rolling_date_all_fetches_fail recordingEnv marsBaseURL (marsProcessResponse recordingEnv) 3
    (.marsResponse ⟨[]⟩) ⟨[], [], 19789⟩ recordingEnv_fetch_fails, by decide⟩

/-- C2. If attempts 1 to k - 1 fail (the fetch fails, or the extraction
function returns an error) and attempt k, with 1 ≤ k ≤ n, fetches successfully
and the extraction function returns a non-empty URL `u` with no error, then
`getImageURLWithRollingDate` returns `(u, nil)` in the world left by that
extraction, having made exactly the k attempts on today, ..., today - (k - 1). -/
theorem rolling_date_success_on_attempt_k {W F : Type} (env : Env W F)
    (baseURL : Template) (processResponse : Extract W) (n k : Nat) (w : W)
    (today : Int) (rts : Nat → Iface) (ws : Nat → W) (rtk : Iface) (wf wk : W)
    (u : String) (hk1 : 1 ≤ k) (hkn : k ≤ n)
    (hnow : env.timeNow w = (today, ws 0))
    (hfailed : ∀ j, j < k - 1 → AttemptFails env baseURL processResponse
      (today - (j : Int)) (rts j) (ws j) (rts (j + 1)) (ws (j + 1)))
    (hfetch : fetchAPIResponse env (baseURL (env.formatDate (today - ((k - 1 : Nat) : Int))))
      (rts (k - 1)) (ws (k - 1)) = (none, rtk, wf))
    (hextract : processResponse rtk wf = some (u, none, wk)) (hu : u ≠ "") :
    getImageURLWithRollingDate env baseURL processResponse (n : Int) (rts 0) w =
        some ⟨u, none, wk, rollingAttempts env baseURL today k⟩ ∧
      (rollingAttempts env baseURL today k).length = k ∧
      (rollingAttempts env baseURL today k).map Attempt.date =
        (List.range k).map (fun (i : Nat) => today - (i : Int)) := by
  obtain ⟨m, rfl⟩ : ∃ m, k = m + 1 := ⟨k - 1, by omega⟩
  simp only [Nat.add_sub_cancel] at hfailed hfetch
  refine ⟨?_, rollingAttempts_length env baseURL today _,
    rollingAttempts_dates env baseURL today _⟩
  rw [resolver_after_failures env baseURL processResponse m n (by omega) w today rts ws hnow
    hfailed]
  have e : n - m = (n - m - 1) + 1 := by omega
  rw [e, rollLoop_step_ok env baseURL processResponse (n - m - 1) (today - (m : Int))
    (rts m) (ws m) rtk wf wk _ u hfetch hextract, if_pos hu, rollingAttempts_snoc]

/-- A concrete run for C2: success on the third of thirty attempts. -/
theorem rolling_date_success_on_attempt_k_witness :
    getImageURLWithRollingDate sampleEnv marsBaseURL (marsProcessResponse sampleEnv)
        ((30 : Nat) : Int) (.marsResponse ⟨[]⟩) (worldOn scriptThird [4] []) =
        some ⟨"http://mars.example/a.jpg", none, worldOn [] [] [],
          rollingAttempts sampleEnv marsBaseURL 19789 3⟩ ∧
      (rollingAttempts sampleEnv marsBaseURL 19789 3).length = 3 ∧
      (rollingAttempts sampleEnv marsBaseURL 19789 3).map Attempt.date =
        (List.range 3).map (fun (i : Nat) => (19789 : Int) - (i : Int)) :=
  rolling_date_success_on_attempt_k sampleEnv marsBaseURL (marsProcessResponse sampleEnv)
    30 3 (worldOn scriptThird [4] []) 19789 (fun _ => .marsResponse ⟨[]⟩)
    (fun j => worldOn (scriptThird.drop j) [4] [])
    (.marsResponse ⟨[⟨"http://mars.example/a.jpg"⟩, ⟨""⟩]⟩) (worldOn [] [4] [])
    (worldOn [] [] []) "http://mars.example/a.jpg" (by decide) (by decide) rfl
    (by
      intro j hj
      have hj2 : j < 2 := hj
      interval_cases j
      · exact Or.inl ⟨"i/o timeout", rfl⟩
      · exact Or.inr ⟨worldOn (scriptThird.drop 2) [4] [], "", "no Mars images found",
          rfl, rfl⟩)
    rfl rfl (by decide)

/-- C3. If attempts 1 to k - 1 fail and attempt k, with 1 ≤ k ≤ n, fetches
successfully and the extraction function returns the empty string with no
error, then `getImageURLWithRollingDate` stops there and returns, with no
error, the request URL built for the date of attempt k, today - (k - 1), which
is the URL of the last attempt it made; with either template the program
uses, that URL is not the empty string. -/
theorem rolling_date_empty_extraction_returns_request_url {W F : Type} (env : Env W F)
    (baseURL : Template) (processResponse : Extract W) (n k : Nat) (w : W)
    (today : Int) (rts : Nat → Iface) (ws : Nat → W) (rtk : Iface) (wf wk : W)
    (hk1 : 1 ≤ k) (hkn : k ≤ n)
    (hnow : env.timeNow w = (today, ws 0))
    (hfailed : ∀ j, j < k - 1 → AttemptFails env baseURL processResponse
      (today - (j : Int)) (rts j) (ws j) (rts (j + 1)) (ws (j + 1)))
    (hfetch : fetchAPIResponse env (baseURL (env.formatDate (today - ((k - 1 : Nat) : Int))))
      (rts (k - 1)) (ws (k - 1)) = (none, rtk, wf))
    (hextract : processResponse rtk wf = some ("", none, wk)) :
    getImageURLWithRollingDate env baseURL processResponse (n : Int) (rts 0) w =
        some ⟨baseURL (env.formatDate (today - ((k - 1 : Nat) : Int))), none, wk,
          rollingAttempts env baseURL today k⟩ ∧
      (rollingAttempts env baseURL today k).getLast? =
        some ⟨today - ((k - 1 : Nat) : Int),
          baseURL (env.formatDate (today - ((k - 1 : Nat) : Int)))⟩ ∧
      (∀ dateStr, marsBaseURL dateStr ≠ "") ∧
      (∀ lon lat dateStr, earthBaseURL env lon lat dateStr ≠ "") := by
  obtain ⟨m, rfl⟩ : ∃ m, k = m + 1 := ⟨k - 1, by omega⟩
  simp only [Nat.add_sub_cancel] at hfailed hfetch ⊢
  refine ⟨?_, ?_, marsBaseURL_ne_empty, earthBaseURL_ne_empty env⟩
  · rw [resolver_after_failures env baseURL processResponse m n (by omega) w today rts ws hnow
      hfailed]
    have e : n - m = (n - m - 1) + 1 := by omega
    rw [e, rollLoop_step_ok env baseURL processResponse (n - m - 1) (today - (m : Int))
      (rts m) (ws m) rtk wf wk _ "" hfetch hextract, rollingAttempts_snoc]
    simp
  · rw [← rollingAttempts_snoc, List.getLast?_append]
    simp

/-- A concrete run for C3: the Earth extraction on the second of three
attempts, at longitude 12.5 and latitude -45.25. -/
theorem rolling_date_empty_extraction_returns_request_url_witness :
    (getImageURLWithRollingDate sampleEnv (earthBaseURL sampleEnv 12500 (-45250))
        earthProcessResponse ((3 : Nat) : Int) .nil (worldOn scriptImage [] []) =
        some ⟨earthBaseURL sampleEnv 12500 (-45250)
            (sampleEnv.formatDate (19789 - ((2 - 1 : Nat) : Int))), none, worldOn [] [] [],
          rollingAttempts sampleEnv (earthBaseURL sampleEnv 12500 (-45250)) 19789 2⟩ ∧
      (rollingAttempts sampleEnv (earthBaseURL sampleEnv 12500 (-45250)) 19789 2).getLast? =
        some ⟨19789 - ((2 - 1 : Nat) : Int),
          earthBaseURL sampleEnv 12500 (-45250)
            (sampleEnv.formatDate (19789 - ((2 - 1 : Nat) : Int)))⟩ ∧
      (∀ dateStr, marsBaseURL dateStr ≠ "") ∧
      (∀ lon lat dateStr, earthBaseURL sampleEnv lon lat dateStr ≠ "")) ∧
    earthBaseURL sampleEnv 12500 (-45250) (sampleEnv.formatDate (19789 - ((2 - 1 : Nat) : Int)))
      = "https://api.nasa.gov/planetary/earth/imagery?lon=12.500000&lat=-45.250000&date=2024-03-06&dim=0.2&api_key=" :=
  ⟨rolling_date_empty_extraction_returns_request_url sampleEnv
    (earthBaseURL sampleEnv 12500 (-45250)) earthProcessResponse 3 2
    (worldOn scriptImage [] []) 19789 (fun _ => .nil)
    (fun j => worldOn (scriptImage.drop j) [] []) .nil (worldOn [] [] []) (worldOn [] [] [])
    (by decide) (by decide) rfl
    (by
      intro j hj
      have hj1 : j < 1 := hj
      interval_cases j
      exact Or.inl ⟨"i/o timeout", rfl⟩)
    rfl rfl, by decide⟩

/-- C4, as the code has it. If all n attempts fail (each fetch fails, or the
extraction function returns an error), `getImageURLWithRollingDate` returns the
empty URL and the error "no images found" after the n attempts: the same
error value for every n, naming no number of attempts. -/
theorem rolling_date_exhausted_error {W F : Type} (env : Env W F) (baseURL : Template)
    (processResponse : Extract W) (n : Nat) (w : W) (today : Int) (rts : Nat → Iface)
    (ws : Nat → W) (hnow : env.timeNow w = (today, ws 0))
    (hfailed : ∀ j, j < n → AttemptFails env baseURL processResponse
      (today - (j : Int)) (rts j) (ws j) (rts (j + 1)) (ws (j + 1))) :
    getImageURLWithRollingDate env baseURL processResponse (n : Int) (rts 0) w =
      some ⟨"", some "no images found", ws n, rollingAttempts env baseURL today n⟩ := by
  rw [resolver_after_failures env baseURL processResponse n n le_rfl w today rts ws hnow
    hfailed, Nat.sub_self]
  rfl

/-- A concrete run for the amended C4: two attempts, both failing. -/
theorem rolling_date_exhausted_error_witness :
    getImageURLWithRollingDate sampleEnv marsBaseURL (marsProcessResponse sampleEnv)
        ((2 : Nat) : Int) (.marsResponse ⟨[]⟩) (worldOn scriptNothing [] []) =
      some ⟨"", some "no images found", worldOn [] [] [],
        rollingAttempts sampleEnv marsBaseURL 19789 2⟩ :=
  rolling_date_exhausted_error sampleEnv marsBaseURL (marsProcessResponse sampleEnv) 2
    (worldOn scriptNothing [] []) 19789 (fun _ => .marsResponse ⟨[]⟩)
    (fun j => worldOn (scriptNothing.drop j) [] []) rfl
    (by
      intro j hj
      interval_cases j
      · exact Or.inl ⟨"API error: rate limit", rfl⟩
      · exact Or.inr ⟨worldOn [] [] [], "", "no Mars images found", rfl, rfl⟩)

/-- C4 as stated fails: with every fetch failing, the error returned for
`daysToRoll = 3` and the error returned for `daysToRoll = 30` are the same
value, "no images found", which names neither 3 nor 30. -/
theorem exhausted_error_does_not_name_attempts :
    Option.map Result.err (getImageURLWithRollingDate offlineEnv marsBaseURL
        (marsProcessResponse offlineEnv) 3 (.marsResponse ⟨[]⟩) (worldOn [] [] [])) =
      some (some "no images found") ∧
    Option.map Result.err (getImageURLWithRollingDate offlineEnv marsBaseURL
        (marsProcessResponse offlineEnv) 30 (.marsResponse ⟨[]⟩) (worldOn [] [] [])) =
      some (some "no images found") ∧
    Option.map Result.err (getImageURLWithRollingDate offlineEnv marsBaseURL
        (marsProcessResponse offlineEnv) 3 (.marsResponse ⟨[]⟩) (worldOn [] [] [])) =
      Option.map Result.err (getImageURLWithRollingDate offlineEnv marsBaseURL
        (marsProcessResponse offlineEnv) 30 (.marsResponse ⟨[]⟩) (worldOn [] [] [])) := by
  refine ⟨by decide, by decide, by decide⟩

/-! ## The providers -/

/-- C5. When the record `getEpicImageURL` selects has image identifier `id` and
a timestamp "YYYY-MM-DD" followed by a space and the time of day, the part of
the timestamp before the first space is "YYYY-MM-DD", the path fragment is
"YYYY/MM/DD", and the URL returned is the archive base, the fragment, "/png/",
`id` and ".png"; timestamp "2024-03-07 11:22:33" and id
"epic_1b_20240307112233" give the URL of the specification's example. -/
theorem epic_url_from_record {W F : Type} (env : Env W F) (w w1 w2 : W)
    (contentType body : String) (data : List EpicImage) (i : Nat)
    (id y mo d time : String)
    (hy : isDigits y 4 = true) (hmo : isDigits mo 2 = true) (hd : isDigits d 2 = true)
    (hget : env.httpGet epicAPIURL w = (.response contentType (.ok body), w1))
    (hdecode : env.decodeEpic body = .ok data)
    (hdraw : Intn env data.length w1 = some (i, w2))
    (hrecord : data[i]? = some ⟨id, y ++ "-" ++ mo ++ "-" ++ d ++ " " ++ time⟩) :
    (Split (y ++ "-" ++ mo ++ "-" ++ d ++ " " ++ time) ' ')[0]? =
        some (y ++ "-" ++ mo ++ "-" ++ d) ∧
      ReplaceAll (y ++ "-" ++ mo ++ "-" ++ d) '-' '/' = y ++ "/" ++ mo ++ "/" ++ d ∧
      getEpicImageURL env w =
        some ⟨"https://epic.gsfc.nasa.gov/archive/natural/" ++ (y ++ "/" ++ mo ++ "/" ++ d)
          ++ "/png/" ++ id ++ ".png", none, w2, []⟩ ∧
      epicImageURL ⟨"epic_1b_20240307112233", "2024-03-07 11:22:33"⟩ =
        some "https://epic.gsfc.nasa.gov/archive/natural/2024/03/07/png/epic_1b_20240307112233.png" := by
  obtain ⟨hsp, hrep⟩ := date_path_of_digits y mo d hy hmo hd
  have hurl := epicImageURL_of_date_part id (y ++ "-" ++ mo ++ "-" ++ d) time hsp
  rw [hrep] at hurl
  have hlen : data.length ≠ 0 := by
    intro h0
    rw [h0] at hdraw
    simp [Intn] at hdraw
  refine ⟨Split_first _ _ ' ' hsp, hrep, ?_, by decide⟩
  simp only [getEpicImageURL, hget, hdecode, hlen, if_false, hdraw, hrecord, hurl]

/-- A concrete run for C5: the specification's example record, served by the
scripted transport. -/
theorem epic_url_from_record_witness :
    (Split ("2024" ++ "-" ++ "03" ++ "-" ++ "07" ++ " " ++ "11:22:33") ' ')[0]? =
        some ("2024" ++ "-" ++ "03" ++ "-" ++ "07") ∧
      ReplaceAll ("2024" ++ "-" ++ "03" ++ "-" ++ "07") '-' '/' =
        "2024" ++ "/" ++ "03" ++ "/" ++ "07" ∧
      getEpicImageURL sampleEnv
          (worldOn [.response "application/json" (.ok bodyEpic)] [5] []) =
        some ⟨"https://epic.gsfc.nasa.gov/archive/natural/" ++
          ("2024" ++ "/" ++ "03" ++ "/" ++ "07") ++ "/png/" ++ "epic_1b_20240307112233"
          ++ ".png", none, worldOn [] [] [], []⟩ ∧
      epicImageURL ⟨"epic_1b_20240307112233", "2024-03-07 11:22:33"⟩ =
        some "https://epic.gsfc.nasa.gov/archive/natural/2024/03/07/png/epic_1b_20240307112233.png" :=
  epic_url_from_record sampleEnv (worldOn [.response "application/json" (.ok bodyEpic)] [5] [])
    (worldOn [] [5] []) (worldOn [] [] []) "application/json" bodyEpic
    [⟨"epic_1b_20240307112233", "2024-03-07 11:22:33"⟩] 0 "epic_1b_20240307112233"
    "2024" "03" "07" "11:22:33" (by decide) (by decide) (by decide) rfl rfl rfl rfl

/-- C6. The Mars extraction function returns an error exactly when the photo
list is empty. For the empty list it returns the empty URL with an error,
consuming no random draw, and the resolver then steps the date back; for a
non-empty list, whatever the random draw, it returns no error and the
`img_src` of a photo of the list. -/
theorem mars_extraction_error_iff_empty {W F : Type} (env : Env W F)
    (photos : List MarsPhoto) (w : W) :
    (∃ url err w1, marsProcessResponse env (.marsResponse ⟨photos⟩) w = some (url, err, w1) ∧
      (err ≠ none ↔ photos = []) ∧
      (photos = [] → url = "" ∧ w1 = w) ∧
      (photos ≠ [] → ∃ photo ∈ photos, url = photo.ImgSrc)) ∧
    (∀ (n : Nat) (date : Int) (rt : Iface) (w0 : W) (log : List Attempt),
      fetchAPIResponse env (marsBaseURL (env.formatDate date)) rt w0 =
          (none, .marsResponse ⟨[]⟩, w) →
        rollLoop env marsBaseURL (marsProcessResponse env) (n + 1) date rt w0 log =
          rollLoop env marsBaseURL (marsProcessResponse env) n (date - 1)
            (.marsResponse ⟨[]⟩) w (log ++ [⟨date, marsBaseURL (env.formatDate date)⟩])) := by
  constructor
  · by_cases hne : photos = []
    · subst hne
      exact ⟨"", some "no Mars images found", w, marsProcessResponse_empty env w,
        by simp, fun _ => ⟨rfl, rfl⟩, fun h => absurd rfl h⟩
    · obtain ⟨photo, hget, h⟩ := marsProcessResponse_nonempty env photos w hne
      exact ⟨photo.ImgSrc, none, (env.randInt w).2, h, by simp [hne],
        fun h0 => absurd h0 hne, fun _ => ⟨photo, List.getElem?_mem hget, rfl⟩⟩
  · intro n date rt w0 log hfetch
    exact rollLoop_step_fail env marsBaseURL (marsProcessResponse env) n date rt w0 _ w log
      (Or.inr ⟨w, "", "no Mars images found", hfetch, marsProcessResponse_empty env w⟩)

/-- A concrete run for C6: the two-photo list with the draw 4, and an empty
list on the first of two attempts. -/
theorem mars_extraction_error_iff_empty_witness :
    marsProcessResponse sampleEnv (.marsResponse ⟨[⟨"http://mars.example/a.jpg"⟩, ⟨""⟩]⟩)
        (worldOn [] [4] []) = some ("http://mars.example/a.jpg", none, worldOn [] [] []) ∧
    rollLoop sampleEnv marsBaseURL (marsProcessResponse sampleEnv) (1 + 1) 19789
        (.marsResponse ⟨[]⟩) (worldOn [.response "application/json" (.ok bodyNoPhotos)] [] [])
        [] =
      rollLoop sampleEnv marsBaseURL (marsProcessResponse sampleEnv) 1 (19789 - 1)
        (.marsResponse ⟨[]⟩) (worldOn [] [] [])
        ([] ++ [⟨19789, marsBaseURL (sampleEnv.formatDate 19789)⟩]) :=
  ⟨by rfl,
   (mars_extraction_error_iff_empty sampleEnv [] (worldOn [] [] [])).2 1 19789
    (.marsResponse ⟨[]⟩) (worldOn [.response "application/json" (.ok bodyNoPhotos)] [] [])
    [] rfl⟩

/-- C10. Selection and path derivation never index out of range. For a
non-empty photo list and a non-empty EPIC record list `rand.Intn(len(list))`
returns an index below the length, at which the list has an element; on an
empty list both providers return their error without drawing; the Mars
extraction never panics; splitting any timestamp on " " gives at least one
element, also for the empty string; and the URL construction and the whole of
`getEpicImageURL` never panic. -/
theorem selection_never_out_of_range {W F : Type} (env : Env W F) (w : W)
    (photos : List MarsPhoto) (data : List EpicImage) (img : EpicImage) (ts : String) :
    (photos ≠ [] → ∃ i w1 photo, Intn env photos.length w = some (i, w1) ∧
      i < photos.length ∧ photos[i]? = some photo) ∧
    (data ≠ [] → ∃ i w1 record, Intn env data.length w = some (i, w1) ∧
      i < data.length ∧ data[i]? = some record) ∧
    marsProcessResponse env (.marsResponse ⟨[]⟩) w =
      some ("", some "no Mars images found", w) ∧
    (∀ (contentType body : String) (w1 : W),
      env.httpGet epicAPIURL w = (.response contentType (.ok body), w1) →
      env.decodeEpic body = .ok [] →
      getEpicImageURL env w = some ⟨"", some "no EPIC images available", w1, []⟩) ∧
    (∀ data0, ∃ out, marsProcessResponse env data0 w = some out) ∧
    (Split ts ' ' ≠ [] ∧ ∃ first, (Split ts ' ')[0]? = some first) ∧
    (Split "" ' ')[0]? = some "" ∧
    (∃ url, epicImageURL img = some url) ∧
    (∃ r, getEpicImageURL env w = some r) := by
  refine ⟨Intn_select env photos w, Intn_select env data w, marsProcessResponse_empty env w,
    ?_, fun data0 => marsProcessResponse_total env data0 w, ⟨?_, Split_head_some ts ' '⟩,
    by decide, epicImageURL_total img, ?_⟩
  · intro contentType body w1 hget hdec
    simp [getEpicImageURL, hget, hdec]
  · intro h
    obtain ⟨first, hf⟩ := Split_head_some ts ' '
    rw [h] at hf
    simp at hf
  · obtain ⟨r, hr, _⟩ := getEpicImageURL_cases env w
    exact ⟨r, hr⟩

/-- A concrete run for C10: a two-photo list and a one-record list with the
draw 7, and an EPIC response holding no record. -/
theorem selection_never_out_of_range_witness :
    (∃ i w1 photo, Intn sampleEnv [(⟨"http://mars.example/a.jpg"⟩ : MarsPhoto), ⟨""⟩].length
        (worldOn [.response "application/json" (.ok "[]")] [7] []) = some (i, w1) ∧
      i < [(⟨"http://mars.example/a.jpg"⟩ : MarsPhoto), ⟨""⟩].length ∧
      [(⟨"http://mars.example/a.jpg"⟩ : MarsPhoto), ⟨""⟩][i]? = some photo) ∧
    (∃ i w1 record, Intn sampleEnv [(⟨"e", "no space"⟩ : EpicImage)].length
        (worldOn [.response "application/json" (.ok "[]")] [7] []) = some (i, w1) ∧
      i < [(⟨"e", "no space"⟩ : EpicImage)].length ∧
      [(⟨"e", "no space"⟩ : EpicImage)][i]? = some record) ∧
    getEpicImageURL sampleEnv (worldOn [.response "application/json" (.ok "[]")] [7] []) =
      some ⟨"", some "no EPIC images available", worldOn [] [7] [], []⟩ :=
  ⟨(selection_never_out_of_range sampleEnv
      (worldOn [.response "application/json" (.ok "[]")] [7] [])
      [⟨"http://mars.example/a.jpg"⟩, ⟨""⟩] [⟨"e", "no space"⟩] ⟨"e", ""⟩ "").1 (by decide),
   (selection_never_out_of_range sampleEnv
      (worldOn [.response "application/json" (.ok "[]")] [7] [])
      [⟨"http://mars.example/a.jpg"⟩, ⟨""⟩] [⟨"e", "no space"⟩] ⟨"e", ""⟩ "").2.1 (by decide),
   (selection_never_out_of_range sampleEnv
      (worldOn [.response "application/json" (.ok "[]")] [7] [])
      [⟨"http://mars.example/a.jpg"⟩, ⟨""⟩] [⟨"e", "no space"⟩] ⟨"e", ""⟩ "").2.2.2.1
      "application/json" "[]" (worldOn [] [7] []) rfl rfl⟩

/-- C7. If every fetch the Earth provider makes (a fetch with the nil
interface as target) fails, `getRandomEarthImageURL` runs exactly 5 coordinate
attempts: each draws a latitude, draws a longitude, reads today's date and
calls `fetchAPIResponse` 3 times, on the URLs built from those coordinates
and the dates today, today - 1, today - 2, every step starting from the world
the previous one left (15 fetches in all). It returns the empty URL with the
error "failed to get Earth image after 5 attempts", whose only number is 5,
in the world those 5 rounds leave. -/
theorem earth_all_fetches_fail {W F : Type} (env : Env W F) (w : W)
    (hfail : ∀ url w1, (fetchAPIResponse env url .nil w1).1 ≠ none) :
    getRandomEarthImageURL env w =
        some ⟨"", some "failed to get Earth image after 5 attempts", (earthRounds env 5 w).2,
          (earthRounds env 5 w).1.flatMap (fun c =>
            (List.range 3).map (fun (i : Nat) =>
              (⟨c.2.2 - (i : Int),
                earthBaseURL env (earthLon env c.2.1) (earthLat env c.1)
                  (env.formatDate (c.2.2 - (i : Int)))⟩ : Attempt)))⟩ ∧
      (earthRounds env 5 w).1.length = 5 ∧
      ((earthRounds env 5 w).1.flatMap (fun c =>
        (List.range 3).map (fun (i : Nat) =>
          (⟨c.2.2 - (i : Int),
            earthBaseURL env (earthLon env c.2.1) (earthLat env c.1)
              (env.formatDate (c.2.2 - (i : Int)))⟩ : Attempt)))).length = 15 ∧
      ("failed to get Earth image after 5 attempts" : String).data.filter Char.isDigit
        = ['5'] := by
  have h := earthLoop_all_fetch_fail env hfail 5 w []
  refine ⟨?_, earthRounds_length env 5 w, ?_, by decide⟩
  · rw [getRandomEarthImageURL, h, List.nil_append]
    rfl
  · show (earthAttempts env (earthRounds env 5 w).1).length = 15
    rw [earthAttempts_length, earthRounds_length]

theorem jsonEnv_nil_fetch_fails (url : String) (w : Recorder) :
    (fetchAPIResponse jsonEnv url .nil w).1 ≠ none := by
  have h1 : HasPrefix "application/json" "image/" = false := by decide
  have h2 : recordingEnv.unmarshalErrorResponse bodyEmptyObject = some ⟨""⟩ := by decide
  simp [fetchAPIResponse, jsonEnv, h1, h2, jsonUnmarshal]

/-- A concrete run for C7, over the transport that records and answers every
request with the empty JSON object (so that a fetch into a `*MarsResponse`
would succeed): the transport has been asked for exactly 15 URLs, all
different, which are the URLs of the attempts in order; the ten draws are
used up; the first and the last URL carry the first and the fifth pair of
coordinates. -/
theorem earth_all_fetches_fail_witness :
    (getRandomEarthImageURL jsonEnv earthStart =
        some ⟨"", some "failed to get Earth image after 5 attempts",
          (earthRounds jsonEnv 5 earthStart).2,
          (earthRounds jsonEnv 5 earthStart).1.flatMap (fun c =>
            (List.range 3).map (fun (i : Nat) =>
              (⟨c.2.2 - (i : Int),
                earthBaseURL jsonEnv (earthLon jsonEnv c.2.1) (earthLat jsonEnv c.1)
                  (jsonEnv.formatDate (c.2.2 - (i : Int)))⟩ : Attempt)))⟩ ∧
      (earthRounds jsonEnv 5 earthStart).1.length = 5 ∧
      ((earthRounds jsonEnv 5 earthStart).1.flatMap (fun c =>
        (List.range 3).map (fun (i : Nat) =>
          (⟨c.2.2 - (i : Int),
            earthBaseURL jsonEnv (earthLon jsonEnv c.2.1) (earthLat jsonEnv c.1)
              (jsonEnv.formatDate (c.2.2 - (i : Int)))⟩ : Attempt)))).length = 15 ∧
      ("failed to get Earth image after 5 attempts" : String).data.filter Char.isDigit
        = ['5']) ∧
    (fetchAPIResponse jsonEnv "u" (.marsResponse ⟨[]⟩) earthStart).1 = none ∧
    (earthRounds jsonEnv 5 earthStart).1 =
      [(250, 500, 19789), (100, 900, 19789), (750, 125, 19789), (0, 999, 19789),
       (600, 400, 19789)] ∧
    Option.map (fun r => (r.err, r.world.floats, r.world.requested.length,
          r.world.requested.eraseDups.length,
          decide (r.world.requested = r.attempts.map Attempt.url),
          r.world.requested.head?, r.world.requested.getLast?))
        (getRandomEarthImageURL jsonEnv earthStart) =
      some (some "failed to get Earth image after 5 attempts", [], 15, 15, true,
        some "https://api.nasa.gov/planetary/earth/imagery?lon=0.000000&lat=-45.000000&date=2024-03-07&dim=0.2&api_key=",
        some "https://api.nasa.gov/planetary/earth/imagery?lon=-36.000000&lat=18.000000&date=2024-03-05&dim=0.2&api_key=") :=
  ⟨earth_all_fetches_fail jsonEnv earthStart jsonEnv_nil_fetch_fails, by decide, by decide,
   by rfl⟩

/-- C8, as the code has it. `getMarsImageURL` and `getRandomEarthImageURL`
always return, and the only errors they return are their terminal ones, "no
images found" and "failed to get Earth image after 5 attempts", with the empty
URL: no failure of a single fetch is their error value. `getEpicImageURL`,
which has no retry loop, also always returns, and its error is "no EPIC
images available" or else the transport error, the body read error or the
decode error of its one fetch, unchanged. -/
theorem provider_error_values {W F : Type} (env : Env W F) (w : W) :
    (∃ r, getMarsImageURL env w = some r ∧
      (r.err = none ∨ (r.err = some "no images found" ∧ r.url = ""))) ∧
    (∃ r, getRandomEarthImageURL env w = some r ∧
      (r.err = none ∨
        (r.err = some "failed to get Earth image after 5 attempts" ∧ r.url = ""))) ∧
    (∃ r, getEpicImageURL env w = some r ∧
      (r.err = none ∨ r.err = some "no EPIC images available" ∨
        (∃ e w1, env.httpGet epicAPIURL w = (.failed e, w1) ∧ r.err = some e) ∨
        (∃ ct e w1, env.httpGet epicAPIURL w = (.response ct (.error e), w1) ∧
          r.err = some e) ∨
        (∃ ct body e w1, env.httpGet epicAPIURL w = (.response ct (.ok body), w1) ∧
          env.decodeEpic body = .error e ∧ r.err = some e))) :=
  ⟨rollLoop_errors env marsBaseURL (marsProcessResponse env)
      (fun rt w0 => marsProcessResponse_total env rt w0) 30 (env.timeNow w).1
      (.marsResponse ⟨[]⟩) (env.timeNow w).2 [],
    earthLoop_errors env 5 w [], getEpicImageURL_cases env w⟩

/-- C8 as stated fails for `getEpicImageURL`: when the transport fails, the
transport error itself is the error the provider returns, and when the body
does not decode, the decode error is. -/
theorem epic_returns_single_fetch_errors :
    Option.map (fun r => (r.url, r.err)) (getEpicImageURL offlineEnv (worldOn [] [] [])) =
      some ("", some "dial tcp: no route to host") ∧
    Option.map (fun r => (r.url, r.err))
        (getEpicImageURL sampleEnv (worldOn [.response "text/html" (.ok "<html>")] [] [])) =
      some ("", some "invalid character") := by
  refine ⟨by decide, by decide⟩

/-- C9. If attempts 1 to k - 1 of `getMarsImageURL` fail and attempt k, with
1 ≤ k ≤ 30, fetches a non-empty photo list in which the randomly selected
photo has an empty `img_src`, then the Mars extraction returns `("", nil)`
and `getMarsImageURL` succeeds with the photo-listing request URL of that
date, which is not the selected photo's image source, instead of stepping the
date back. -/
theorem mars_empty_img_src_returns_request_url {W F : Type} (env : Env W F) (k : Nat)
    (w : W) (today : Int) (rts : Nat → Iface) (ws : Nat → W) (photos : List MarsPhoto)
    (wf wk : W) (i : Nat) (photo : MarsPhoto) (hk1 : 1 ≤ k) (hk30 : k ≤ 30)
    (hnow : env.timeNow w = (today, ws 0)) (hstart : rts 0 = .marsResponse ⟨[]⟩)
    (hfailed : ∀ j, j < k - 1 → AttemptFails env marsBaseURL (marsProcessResponse env)
      (today - (j : Int)) (rts j) (ws j) (rts (j + 1)) (ws (j + 1)))
    (hfetch : fetchAPIResponse env (marsBaseURL (env.formatDate (today - ((k - 1 : Nat) : Int))))
      (rts (k - 1)) (ws (k - 1)) = (none, .marsResponse ⟨photos⟩, wf))
    (hne : photos ≠ [])
    (hdraw : Intn env photos.length wf = some (i, wk))
    (hphoto : photos[i]? = some photo) (hsrc : photo.ImgSrc = "") :
    marsProcessResponse env (.marsResponse ⟨photos⟩) wf = some ("", none, wk) ∧
      getMarsImageURL env w =
        some ⟨marsBaseURL (env.formatDate (today - ((k - 1 : Nat) : Int))), none, wk,
          rollingAttempts env marsBaseURL today k⟩ ∧
      marsBaseURL (env.formatDate (today - ((k - 1 : Nat) : Int))) ≠ photo.ImgSrc := by
  have hlen : photos.length ≠ 0 := fun h => hne (List.length_eq_zero.mp h)
  have hextract : marsProcessResponse env (.marsResponse ⟨photos⟩) wf = some ("", none, wk) := by
    simp only [marsProcessResponse, hlen, if_false, hdraw, hphoto, hsrc]
  obtain ⟨m, rfl⟩ : ∃ m, k = m + 1 := ⟨k - 1, by omega⟩
  simp only [Nat.add_sub_cancel] at hfailed hfetch ⊢
  refine ⟨hextract, ?_, ?_⟩
  · have h30 : getMarsImageURL env w = getImageURLWithRollingDate env marsBaseURL
        (marsProcessResponse env) ((30 : Nat) : Int) (rts 0) w := by
      rw [hstart]; rfl
    rw [h30, resolver_after_failures env marsBaseURL (marsProcessResponse env) m 30 (by omega)
      w today rts ws hnow hfailed]
    have e : 30 - m = (30 - m - 1) + 1 := by omega
    rw [e, rollLoop_step_ok env marsBaseURL (marsProcessResponse env) (30 - m - 1)
      (today - (m : Int)) (rts m) (ws m) _ wf wk _ "" hfetch hextract, rollingAttempts_snoc]
    simp
  · rw [hsrc]
    exact marsBaseURL_ne_empty _

/-- A concrete run for C9: the second fetch returns two photos and the draw 1
selects the one with the empty `img_src`; the URL returned is the image source
of neither photo. -/
theorem mars_empty_img_src_returns_request_url_witness :
    (marsProcessResponse sampleEnv (.marsResponse ⟨[⟨"http://mars.example/a.jpg"⟩, ⟨""⟩]⟩)
        (worldOn [] [1] []) = some ("", none, worldOn [] [] []) ∧
      getMarsImageURL sampleEnv (worldOn scriptSecond [1] []) =
        some ⟨marsBaseURL (sampleEnv.formatDate (19789 - ((2 - 1 : Nat) : Int))), none,
          worldOn [] [] [], rollingAttempts sampleEnv marsBaseURL 19789 2⟩ ∧
      marsBaseURL (sampleEnv.formatDate (19789 - ((2 - 1 : Nat) : Int))) ≠
        (⟨""⟩ : MarsPhoto).ImgSrc) ∧
    marsBaseURL (sampleEnv.formatDate (19789 - ((2 - 1 : Nat) : Int))) =
      "https://api.nasa.gov/mars-photos/api/v1/rovers/curiosity/photos?earth_date=2024-03-06&api_key=" ∧
    (∀ q ∈ [(⟨"http://mars.example/a.jpg"⟩ : MarsPhoto), ⟨""⟩],
      q.ImgSrc ≠ marsBaseURL (sampleEnv.formatDate (19789 - ((2 - 1 : Nat) : Int)))) :=
  ⟨mars_empty_img_src_returns_request_url sampleEnv 2 (worldOn scriptSecond [1] []) 19789
    (fun _ => .marsResponse ⟨[]⟩) (fun j => worldOn (scriptSecond.drop j) [1] [])
    [⟨"http://mars.example/a.jpg"⟩, ⟨""⟩] (worldOn [] [1] []) (worldOn [] [] []) 1 ⟨""⟩
    (by decide) (by decide) rfl rfl
    (by
      intro j hj
      have hj1 : j < 1 := hj
      interval_cases j
      exact Or.inl ⟨"i/o timeout", rfl⟩)
    rfl (by decide) rfl rfl rfl, by decide, by decide⟩

end NasaBackground
